import Mathlib

/-!
Verification of the reliable event delivery core of the Veritas repository:
the transactional outbox dispatcher, the queue worker, the idempotency
ledger, the aggregate write path, and the aggregate state machines.

Each section embeds one source module as executable Lean definitions,
translated statement by statement from the TypeScript.  Database tables are
modelled as lists of rows in storage order; SQL predicates follow Postgres
semantics (in particular, `col < v` is not satisfied when `col` is NULL).
Timestamps are naturals counting milliseconds.
-/

namespace Veritas

/-! ## Outbox dispatcher (`src/event-bus/outbox-processor.service.ts`)

Constants from the top of the file. -/

def POLL_INTERVAL_MS : Nat := 1000
def BATCH_SIZE : Nat := 100
def BASE_RETRY_DELAY_MS : Nat := 1000
def MAX_RETRY_DELAY_MS : Nat := 300000

/-- `outbox_status` enum from the drizzle schema (`db/schema.ts`). -/
inductive OutboxStatus
  | pending
  | processing
  | completed
  | failed
deriving DecidableEq, BEq, Repr

/-- One row of `event_outbox` (drizzle schema `eventOutbox`).  JSON payloads
are opaque strings; nullable columns are `Option`. -/
structure OutboxRow where
  id : Nat
  eventId : Nat
  eventType : String
  aggregateType : String
  aggregateId : String
  payload : String
  status : OutboxStatus
  retryCount : Nat
  maxRetries : Nat
  lastError : Option String
  createdAt : Nat
  processedAt : Option Nat
  nextRetryAt : Option Nat
deriving DecidableEq, Repr

/-- Postgres semantics of `column < value` for a nullable timestamp column:
a NULL column never satisfies the comparison. -/
def sqlLtNullable (col : Option Nat) (v : Nat) : Bool :=
  match col with
  | some t => decide (t < v)
  | none => false

/-- The WHERE clause of `claimPendingEvents`:
`(status = 'pending' OR (status = 'processing' AND next_retry_at < now))
AND retry_count < max_retries`. -/
def claimFilter (now : Nat) (r : OutboxRow) : Bool :=
  (r.status == OutboxStatus.pending ||
    (r.status == OutboxStatus.processing && sqlLtNullable r.nextRetryAt now)) &&
  decide (r.retryCount < r.maxRetries)

/-- The SELECT of `claimPendingEvents`: rows matching the filter, limited to
`BATCH_SIZE`.  The query has no ORDER BY and no FOR UPDATE clause, so it
reads rows in storage order without taking row locks. -/
def claimSelect (now : Nat) (db : List OutboxRow) : List OutboxRow :=
  (db.filter (claimFilter now)).take BATCH_SIZE

/-- The UPDATE of `claimPendingEvents`: set `status = 'processing'` on the
selected ids.  No other column (in particular `next_retry_at`) is written. -/
def claimMark (selected : List OutboxRow) (db : List OutboxRow) : List OutboxRow :=
  db.map (fun r =>
    if selected.any (fun e => e.id == r.id) then
      { r with status := OutboxStatus.processing }
    else r)

/-- `claimPendingEvents`: the SELECT followed by the UPDATE, issued as two
separate statements on the connection (the source wraps them in no
transaction).  Returns the selected rows (with their pre-update fields, as
the source returns the array produced by the SELECT) and the new table. -/
def claimPendingEvents (now : Nat) (db : List OutboxRow) :
    List OutboxRow × List OutboxRow :=
  let events := claimSelect now db
  (events, claimMark events db)

/-- `markCompleted`: set `status = 'completed'`, `processed_at = now`. -/
def markCompletedRow (now : Nat) (r : OutboxRow) : OutboxRow :=
  { r with status := OutboxStatus.completed, processedAt := some now }

/-- `markFailed` applied to the claimed row: increment the retry count; at or
above `max_retries` the row becomes `failed` with the error recorded,
otherwise it returns to `pending` with the error recorded and
`next_retry_at = now + min(BASE_RETRY_DELAY_MS * 2 ^ newRetryCount,
MAX_RETRY_DELAY_MS)`. -/
def markFailedRow (now : Nat) (r : OutboxRow) (errorMessage : String) : OutboxRow :=
  let newRetryCount := r.retryCount + 1
  if r.maxRetries ≤ newRetryCount then
    { r with status := OutboxStatus.failed,
             retryCount := newRetryCount,
             lastError := some errorMessage }
  else
    let retryDelay := min (BASE_RETRY_DELAY_MS * 2 ^ newRetryCount) MAX_RETRY_DELAY_MS
    { r with status := OutboxStatus.pending,
             retryCount := newRetryCount,
             lastError := some errorMessage,
             nextRetryAt := some (now + retryDelay) }

/-- Interleaving of two dispatcher processes A and B running
`claimPendingEvents` against the same table.  Because the source issues the
SELECT and the UPDATE as two independent statements with no surrounding
transaction and no row locks, the schedule A.select, B.select, A.update,
B.update is admissible; this definition executes that schedule. -/
def interleavedClaims (now : Nat) (db : List OutboxRow) :
    List OutboxRow × List OutboxRow × List OutboxRow :=
  let sA := claimSelect now db
  let sB := claimSelect now db
  let db1 := claimMark sA db
  let db2 := claimMark sB db1
  (sA, sB, db2)

/-! Concrete rows used by the dispatcher claims. -/

/-- A freshly inserted outbox row: the write path inserts
`status = 'pending'` and leaves `retry_count`, `max_retries` at their schema
defaults (0 and 5) and `next_retry_at` NULL. -/
def freshPendingRow : OutboxRow :=
  { id := 1
    eventId := 11
    eventType := "policy.created"
    aggregateType := "policy"
    aggregateId := "p1"
    payload := "pl"
    status := OutboxStatus.pending
    retryCount := 0
    maxRetries := 5
    lastError := none
    createdAt := 0
    processedAt := none
    nextRetryAt := none }

/-- `freshPendingRow` after the claim UPDATE ran and the process crashed
before the queue enqueue: `status = 'processing'`, `next_retry_at` still
NULL. -/
def crashedProcessingRow : OutboxRow :=
  { freshPendingRow with status := OutboxStatus.processing }

/-- A pending row created later than `rowEarly` but stored first. -/
def rowLate : OutboxRow :=
  { freshPendingRow with id := 2, eventId := 12, createdAt := 5 }

/-- A pending row created earlier than `rowLate` but stored after it. -/
def rowEarly : OutboxRow :=
  { freshPendingRow with id := 3, eventId := 13, createdAt := 3 }

end Veritas

namespace Veritas

/-! Sanity examples for the dispatcher model (kept as anonymous examples). -/

example : claimFilter 10 freshPendingRow = true := by decide

example : claimFilter 10 crashedProcessingRow = false := by decide

example :
    (claimPendingEvents 0 [freshPendingRow]).2 = [crashedProcessingRow] := by decide

/-! ## Dispatcher theorems -/

/-- C4: the claim step does not take row locks and does not run in a
transaction, so two concurrently running dispatchers can both select and
claim the same outbox row.  On a table holding one fresh pending row, the
admissible schedule A.select, B.select, A.update, B.update makes both
dispatchers claim that row: their claimed sets are identical, not
disjoint, and the row is processed twice concurrently. -/
theorem concurrent_dispatchers_claim_same_row :
    (interleavedClaims 0 [freshPendingRow]).1 = [freshPendingRow] ∧
    (interleavedClaims 0 [freshPendingRow]).2.1 = [freshPendingRow] ∧
    freshPendingRow ∈ (interleavedClaims 0 [freshPendingRow]).1 ∧
    freshPendingRow ∈ (interleavedClaims 0 [freshPendingRow]).2.1 := by
  decide

/-- C5: a row claimed from the fresh pending state carries a NULL
`next_retry_at` (the claim UPDATE writes only `status`), and the claim
filter requires `next_retry_at < now` for `processing` rows, which NULL
never satisfies.  So after a crash between claim and enqueue the row is
never selected again, at any later time: it is not reclaimed within one
`next-retry-at` interval or ever. -/
theorem crashed_processing_row_never_reclaimed (now : Nat) :
    (claimPendingEvents 0 [freshPendingRow]).2 = [crashedProcessingRow] ∧
    claimSelect now [crashedProcessingRow] = [] := by
  refine ⟨by decide, ?_⟩
  simp [claimSelect, claimFilter, crashedProcessingRow, freshPendingRow, sqlLtNullable]
  decide

/-- C6 counterexample: the claim SELECT has no ORDER BY clause, so rows come
back in storage order, not in created-at ascending order.  With `rowLate`
(created at 5) stored before `rowEarly` (created at 3), the query returns
them in stored order and the sequence of created-at values is not
ascending. -/
theorem claim_select_not_ordered_by_created_at :
    claimSelect 10 [rowLate, rowEarly] = [rowLate, rowEarly] ∧
    (claimSelect 10 [rowLate, rowEarly]).map OutboxRow.createdAt = [5, 3] ∧
    ¬ List.Sorted (· ≤ ·) ((claimSelect 10 [rowLate, rowEarly]).map OutboxRow.createdAt) := by
  refine ⟨by decide, by decide, ?_⟩
  intro h
  have e : (claimSelect 10 [rowLate, rowEarly]).map OutboxRow.createdAt = [5, 3] := by decide
  rw [e] at h
  exact absurd (List.rel_of_sorted_cons h 3 (by decide)) (by decide)

/-- C6 amended: on each tick the claim query returns rows satisfying
`(status = 'pending' OR (status = 'processing' AND next_retry_at < now))
AND retry_count < max_retries`, at most `BATCH_SIZE = 100` of them; the
result is a subsequence of the table in storage order (no created-at
ordering is imposed), and when at most 100 rows match, it is exactly the
matching rows. -/
theorem claim_select_characterization (now : Nat) (db : List OutboxRow) :
    (claimSelect now db).length ≤ BATCH_SIZE ∧
    (claimSelect now db).Sublist db ∧
    (∀ r ∈ claimSelect now db, claimFilter now r = true) ∧
    ((db.filter (claimFilter now)).length ≤ BATCH_SIZE →
      claimSelect now db = db.filter (claimFilter now)) := by
  refine ⟨?_, ?_, ?_, ?_⟩
  · exact le_trans (List.length_take_le _ _) (le_refl _)
  · exact (List.take_sublist _ _).trans (List.filter_sublist db)
  · intro r hr
    exact List.of_mem_filter (List.mem_of_mem_take hr)
  · intro h
    exact List.take_of_length_le h

/-- C6 amended, witness: the characterization evaluated on the concrete
two-row table. -/
theorem claim_select_characterization_witness :
    (claimSelect 10 [rowLate, rowEarly]).length ≤ BATCH_SIZE ∧
    (claimSelect 10 [rowLate, rowEarly]).Sublist [rowLate, rowEarly] ∧
    (∀ r ∈ claimSelect 10 [rowLate, rowEarly], claimFilter 10 r = true) ∧
    (([rowLate, rowEarly].filter (claimFilter 10)).length ≤ BATCH_SIZE →
      claimSelect 10 [rowLate, rowEarly] = [rowLate, rowEarly].filter (claimFilter 10)) :=
  claim_select_characterization 10 [rowLate, rowEarly]

/-- C7: on enqueue failure `markFailed` increments the retry count; when the
incremented count reaches `max_retries` the row becomes `failed` with the
error text recorded; otherwise it becomes `pending` with the error text
recorded and `next_retry_at = now + min(1000ms * 2 ^ newCount, 300000ms)`,
i.e. base delay 1 s doubled per attempt and capped at 5 min. -/
theorem markFailed_retry_policy (now : Nat) (r : OutboxRow) (msg : String) :
    (markFailedRow now r msg).retryCount = r.retryCount + 1 ∧
    (r.maxRetries ≤ r.retryCount + 1 →
      (markFailedRow now r msg).status = OutboxStatus.failed ∧
      (markFailedRow now r msg).lastError = some msg) ∧
    (r.retryCount + 1 < r.maxRetries →
      (markFailedRow now r msg).status = OutboxStatus.pending ∧
      (markFailedRow now r msg).lastError = some msg ∧
      (markFailedRow now r msg).nextRetryAt =
        some (now + min (BASE_RETRY_DELAY_MS * 2 ^ (r.retryCount + 1)) MAX_RETRY_DELAY_MS)) := by
  by_cases h : r.maxRetries ≤ r.retryCount + 1
  · exact ⟨by simp [markFailedRow, h],
      fun _ => ⟨by simp [markFailedRow, h], by simp [markFailedRow, h]⟩,
      fun hlt => absurd hlt (by omega)⟩
  · exact ⟨by simp [markFailedRow, h],
      fun hle => absurd hle h,
      fun _ => ⟨by simp [markFailedRow, h], by simp [markFailedRow, h],
        by simp [markFailedRow, h]⟩⟩

/-- C7 witness: the retry policy evaluated on the fresh row at time 0. -/
theorem markFailed_retry_policy_witness :
    (markFailedRow 0 freshPendingRow "boom").retryCount = freshPendingRow.retryCount + 1 ∧
    (freshPendingRow.maxRetries ≤ freshPendingRow.retryCount + 1 →
      (markFailedRow 0 freshPendingRow "boom").status = OutboxStatus.failed ∧
      (markFailedRow 0 freshPendingRow "boom").lastError = some "boom") ∧
    (freshPendingRow.retryCount + 1 < freshPendingRow.maxRetries →
      (markFailedRow 0 freshPendingRow "boom").status = OutboxStatus.pending ∧
      (markFailedRow 0 freshPendingRow "boom").lastError = some "boom" ∧
      (markFailedRow 0 freshPendingRow "boom").nextRetryAt =
        some (0 + min (BASE_RETRY_DELAY_MS * 2 ^ (freshPendingRow.retryCount + 1))
          MAX_RETRY_DELAY_MS)) :=
  markFailed_retry_policy 0 freshPendingRow "boom"

/-- C10: the `pending` branch of the claim filter places no condition on
`next_retry_at`, so a row that a failed enqueue returned to `pending` (with
its backoff timestamp in the future) is selectable again immediately: for a
row below its retry limit, `markFailed` at time `now` produces a row the
claim filter accepts at every time `now2`, even `now2 < now +` backoff. -/
theorem pending_rows_claimable_regardless_of_backoff (now now2 : Nat) (r : OutboxRow)
    (msg : String) (h : r.retryCount + 1 < r.maxRetries) :
    claimFilter now2 (markFailedRow now r msg) = true := by
  have h2 : ¬ r.maxRetries ≤ r.retryCount + 1 := by omega
  simp [markFailedRow, claimFilter, h2, sqlLtNullable]
  exact ⟨Or.inl (by decide), by omega⟩

/-- C10 witness: the freshly failed fresh row (backoff set to 0 + 2000 ms)
is accepted by the claim filter already at time 1. -/
theorem pending_rows_claimable_regardless_of_backoff_witness :
    (freshPendingRow.retryCount + 1 < freshPendingRow.maxRetries) ∧
    claimFilter 1 (markFailedRow 0 freshPendingRow "boom") = true :=
  ⟨by decide, pending_rows_claimable_regardless_of_backoff 0 1 freshPendingRow "boom" (by decide)⟩

/-! ## Queue worker (`src/workers/domain-events.processor.ts`)

`DomainEventsProcessor.process` runs every registered handler via
`Promise.allSettled` and inspects the settled outcomes.  We embed the
result aggregation over the list of per-handler outcomes
(`true` = fulfilled, `false` = rejected), in handler order. -/

/-- The rejected results, `results.filter(status === rejected)`. -/
def settledFailures (handlerResults : List Bool) : List Bool :=
  handlerResults.filter (fun b => !b)

/-- The tail of `process`: with no handlers the job returns (acknowledged);
otherwise, when every settled outcome is a rejection
(`failures.length === handlers.length`) the method throws
(`All handlers failed for event ...`), failing the job; in every other
case the method returns normally and the job is acknowledged. -/
def processJobResult (handlerResults : List Bool) : Except String Unit :=
  if handlerResults.isEmpty then Except.ok ()
  else if (settledFailures handlerResults).length = handlerResults.length then
    Except.error "All handlers failed"
  else Except.ok ()

/-- The `logger.error` escalation in `process` fires whenever at least one
handler outcome is a rejection (`failures.length > 0`). -/
def processEscalatesLog (handlerResults : List Bool) : Bool :=
  0 < (settledFailures handlerResults).length

/-- C1 counterexample: with two handlers of which exactly one fails, the
worker logs the failure but `process` returns normally, so the job is
acknowledged and never retried — the claim says any handler failure makes
the job result a failure. -/
theorem partial_handler_failure_acknowledges_job :
    (settledFailures [true, false]).length = 1 ∧
    processJobResult [true, false] = Except.ok () ∧
    processEscalatesLog [true, false] = true := by
  exact ⟨rfl, rfl, rfl⟩

/-- All-false outcome lists are exactly the ones whose failure filter keeps
everything. -/
theorem settledFailures_length_eq_iff (results : List Bool) :
    (settledFailures results).length = results.length ↔ ∀ b ∈ results, b = false := by
  simp only [settledFailures]
  constructor
  · intro h b hb
    simpa using List.filter_length_eq_length.mp h b hb
  · intro h
    exact List.filter_length_eq_length.mpr (fun b hb => by simpa using h b hb)

/-- C1 amended: the job result is a failure exactly when there is at least
one handler and every handler failed; when at least one handler succeeds
the job is acknowledged even if others failed (escalated log severity is
the only effect of a partial failure); escalation happens iff some handler
failed. -/
theorem process_job_failure_semantics (results : List Bool) :
    (results ≠ [] ∧ (∀ b ∈ results, b = false) →
      processJobResult results = Except.error "All handlers failed") ∧
    ((∃ b ∈ results, b = true) → processJobResult results = Except.ok ()) ∧
    (processEscalatesLog results = true ↔ ∃ b ∈ results, b = false) := by
  refine ⟨?_, ?_, ?_⟩
  · rintro ⟨hne, hall⟩
    have hlen : (settledFailures results).length = results.length :=
      (settledFailures_length_eq_iff results).mpr hall
    simp [processJobResult, hlen, List.isEmpty_iff, hne]
  · rintro ⟨b, hb, hbt⟩
    have hlen : (settledFailures results).length ≠ results.length := by
      intro hlen
      have := (settledFailures_length_eq_iff results).mp hlen b hb
      simp [hbt] at this
    by_cases hne : results.isEmpty <;> simp [processJobResult, hne, hlen]
  · simp only [processEscalatesLog, settledFailures, decide_eq_true_eq]
    rw [List.length_pos]
    constructor
    · intro hne
      obtain ⟨b, hb⟩ := List.exists_mem_of_ne_nil _ hne
      exact ⟨b, List.mem_of_mem_filter hb, by simpa using List.of_mem_filter hb⟩
    · rintro ⟨b, hb, hbf⟩
      exact List.ne_nil_of_mem (List.mem_filter.mpr ⟨hb, by simp [hbf]⟩)

/-- C1 amended, witness: a single failing handler fails the job; one success
among a failure acknowledges; escalation reports the failure. -/
theorem process_job_failure_semantics_witness :
    processJobResult [false] = Except.error "All handlers failed" ∧
    processJobResult [true, false] = Except.ok () ∧
    (processEscalatesLog [true, false] = true ↔ ∃ b ∈ [true, false], b = false) :=
  ⟨(process_job_failure_semantics [false]).1 ⟨by simp, by simp⟩,
   (process_job_failure_semantics [true, false]).2.1 ⟨true, by simp, rfl⟩,
   (process_job_failure_semantics [true, false]).2.2⟩

/-! ## Idempotency ledger (migration DDL for `processed_events`,
`DomainEventsProcessor.markAsProcessed`)

The database is built by the shipped SQL migration, which ends the
`processed_events` DDL with
`CREATE UNIQUE INDEX "processed_events_event_handler_idx" ON
"processed_events" ("event_id", "handler_name")`, so the deployed table
enforces uniqueness on the pair.  (The drizzle TS schema declares the same
index non-unique via `index(...)` — a metadata drift — but the migration is
what creates the table.) -/

/-- Kind of a drizzle index declaration. -/
inductive IndexKind
  | plain
  | uniqueIdx
deriving DecidableEq, BEq, Repr

/-- The indexes of the `processed_events` table as created by the shipped
migration: one UNIQUE index on `(event_id, handler_name)`. -/
def processedEventsIndexes : List (IndexKind × List String) :=
  [(IndexKind.uniqueIdx, ["event_id", "handler_name"])]

/-- Whether the schema declares a unique index on the given columns. -/
def processedEventsHasUnique (cols : List String) : Bool :=
  processedEventsIndexes.any (fun ix => ix.1 == IndexKind.uniqueIdx && ix.2 == cols)

/-- One row of `processed_events`. -/
structure ProcessedEventRow where
  id : Nat
  eventId : String
  handlerName : String
  processedAt : Nat
deriving DecidableEq, Repr

/-- Postgres `INSERT ... ON CONFLICT DO NOTHING` with no conflict target:
the insert is skipped iff it would violate some unique constraint of the
table — here the primary key on `id` or any unique index the schema
declares; otherwise the row is appended. -/
def insertProcessedEventOnConflictDoNothing
    (tbl : List ProcessedEventRow) (row : ProcessedEventRow) : List ProcessedEventRow :=
  let pkViolated := tbl.any (fun r => r.id == row.id)
  let uniqueIdxViolated :=
    processedEventsHasUnique ["event_id", "handler_name"] &&
      tbl.any (fun r => r.eventId == row.eventId && r.handlerName == row.handlerName)
  if pkViolated || uniqueIdxViolated then tbl else tbl ++ [row]

/-- `markAsProcessed`: insert `(eventId, handlerName)` with a fresh random
primary key and `processed_at` defaulting to now, `onConflictDoNothing`. -/
def markAsProcessed (tbl : List ProcessedEventRow) (freshId : Nat) (now : Nat)
    (eventId handlerName : String) : List ProcessedEventRow :=
  insertProcessedEventOnConflictDoNothing tbl
    { id := freshId, eventId := eventId, handlerName := handlerName, processedAt := now }

/-- Number of ledger rows for one `(event_id, handler_name)` pair. -/
def pairCount (tbl : List ProcessedEventRow) (e h : String) : Nat :=
  (tbl.filter (fun r => r.eventId == e && r.handlerName == h)).length

/-- C2: the migration's unique index on `(event_id, handler_name)` is in
force, so `markAsProcessed` on a duplicate pair is silently absorbed by
`ON CONFLICT DO NOTHING` (the table is returned unchanged, no error), an
absent pair with a fresh primary key is inserted, and the at-most-one-row
invariant for every pair is preserved by every insert. -/
theorem ledger_enforces_pair_uniqueness (tbl : List ProcessedEventRow)
    (freshId now : Nat) (eventId handlerName : String) :
    processedEventsHasUnique ["event_id", "handler_name"] = true ∧
    (tbl.any (fun r => r.eventId == eventId && r.handlerName == handlerName) = true →
      markAsProcessed tbl freshId now eventId handlerName = tbl) ∧
    (tbl.any (fun r => r.eventId == eventId && r.handlerName == handlerName) = false →
      tbl.any (fun r => r.id == freshId) = false →
      markAsProcessed tbl freshId now eventId handlerName =
        tbl ++ [{ id := freshId, eventId := eventId, handlerName := handlerName,
                  processedAt := now }]) ∧
    (∀ e h, pairCount tbl e h ≤ 1 →
      pairCount (markAsProcessed tbl freshId now eventId handlerName) e h ≤ 1) := by
  have huniq : processedEventsHasUnique ["event_id", "handler_name"] = true := rfl
  have hdupcase :
      tbl.any (fun r => r.eventId == eventId && r.handlerName == handlerName) = true →
      markAsProcessed tbl freshId now eventId handlerName = tbl := by
    intro hdup
    simp [markAsProcessed, insertProcessedEventOnConflictDoNothing, huniq, hdup]
  have hinscase :
      tbl.any (fun r => r.eventId == eventId && r.handlerName == handlerName) = false →
      tbl.any (fun r => r.id == freshId) = false →
      markAsProcessed tbl freshId now eventId handlerName =
        tbl ++ [{ id := freshId, eventId := eventId, handlerName := handlerName,
                  processedAt := now }] := by
    intro hdup hpk
    simp [markAsProcessed, insertProcessedEventOnConflictDoNothing, huniq, hdup, hpk]
  refine ⟨huniq, hdupcase, hinscase, ?_⟩
  intro e h hle
  by_cases hdup : tbl.any (fun r => r.eventId == eventId && r.handlerName == handlerName) = true
  · rw [hdupcase hdup]
    exact hle
  · rw [Bool.not_eq_true] at hdup
    by_cases hpk : tbl.any (fun r => r.id == freshId) = true
    · have : markAsProcessed tbl freshId now eventId handlerName = tbl := by
        simp [markAsProcessed, insertProcessedEventOnConflictDoNothing, hpk]
      rw [this]
      exact hle
    · rw [Bool.not_eq_true] at hpk
      rw [hinscase hdup hpk]
      simp only [pairCount, List.filter_append, List.length_append, List.filter_cons,
        List.filter_nil]
      by_cases hm : (eventId == e && handlerName == h) = true
      · obtain ⟨he, hh⟩ : eventId = e ∧ handlerName = h := by
          simpa using hm
        subst he
        subst hh
        have hnil : tbl.filter (fun r => r.eventId == eventId && r.handlerName == handlerName)
            = [] := by
          rw [List.filter_eq_nil_iff]
          intro r hr
          have := List.any_eq_false.mp hdup r hr
          simpa using this
        simp [hnil]
      · rw [Bool.not_eq_true] at hm
        simpa [hm, pairCount] using hle

/-- A ledger row recording that AuditHandler processed event e1. -/
def sampleLedgerRow : ProcessedEventRow :=
  { id := 1, eventId := "e1", handlerName := "AuditHandler", processedAt := 10 }

/-- C2 witness: on a one-row table, re-recording the same pair leaves the
table unchanged and the pair still has a single row. -/
theorem ledger_enforces_pair_uniqueness_witness :
    markAsProcessed [sampleLedgerRow] 2 11 "e1" "AuditHandler" = [sampleLedgerRow] ∧
    pairCount (markAsProcessed [sampleLedgerRow] 2 11 "e1" "AuditHandler")
      "e1" "AuditHandler" ≤ 1 :=
  ⟨(ledger_enforces_pair_uniqueness [sampleLedgerRow] 2 11 "e1" "AuditHandler").2.1
      (by decide),
   (ledger_enforces_pair_uniqueness [sampleLedgerRow] 2 11 "e1" "AuditHandler").2.2.2
      "e1" "AuditHandler" (by decide)⟩

/-! ## Action aggregate (`src/domain/aggregates/action.aggregate.ts`)

`StatusType` from `db/types.ts`; JSON metadata blobs are opaque strings. -/

/-- `StatusType = 'active' | 'inactive' | 'suspended'`. -/
inductive StatusType
  | active
  | inactive
  | suspended
deriving DecidableEq, BEq, Repr

/-- The in-memory `ActionState`. -/
structure ActionState where
  id : String
  userId : String
  name : String
  type : String
  description : Option String
  metadata : Option String
  status : StatusType
  version : Nat
  createdAt : Nat
  updatedAt : Nat
  completedAt : Option Nat
deriving DecidableEq, Repr

/-- The `changes` argument of `ActionAggregate.update`: each field is
optional (`undefined` = absent). -/
structure ActionUpdateChanges where
  name : Option String
  description : Option String
  metadata : Option String
deriving DecidableEq, Repr

/-- The `changeRecord` object built by `update`: per field, the `from`/`to`
pair when the source adds that key. -/
structure ActionChangeRecord where
  name : Option (String × String)
  description : Option (Option String × Option String)
  metadata : Option (Option String × Option String)
deriving DecidableEq, Repr

/-- Payload of the `action.updated` event built by `createActionUpdatedEvent`. -/
structure ActionUpdatedEvent where
  actionId : String
  changes : ActionChangeRecord
  newVersion : Nat
  updatedAt : Nat
deriving DecidableEq, Repr

/-- Domain events the Action aggregate can append to its uncommitted
buffer (only the update event is needed here). -/
inductive ActionEvent
  | updated (e : ActionUpdatedEvent)
deriving DecidableEq, Repr

/-- A business rule failure (`businessRuleViolation`), identified by its
rule id. -/
structure BusinessRuleViolation where
  rule : String
deriving DecidableEq, Repr

/-- JS `s?.trim() || null`: trimming, with the empty result made null. -/
def jsTrimOrNull (s : String) : Option String :=
  if s.trim.length = 0 then none else some s.trim

/-- Guard `changes.name !== undefined && changes.name.trim().length === 0`. -/
def providedNameEmpty (changes : ActionUpdateChanges) : Bool :=
  match changes.name with
  | some n => n.trim.length == 0
  | none => false

/-- Guard `changes.name !== undefined && changes.name.length > 200`. -/
def providedNameTooLong (changes : ActionUpdateChanges) : Bool :=
  match changes.name with
  | some n => decide (200 < n.length)
  | none => false

/-- `ActionAggregate.update`, translated clause by clause: version guard,
terminal-state guard, name validation, then the per-field change record —
note the metadata clause adds a change whenever `changes.metadata` is
provided at all, with no comparison against the current value — and
finally either the no-op early return (empty change record) or the
version bump with one `action.updated` event.  Returns the post-state and
the uncommitted events. -/
def actionAggregateUpdate (state : ActionState) (changes : ActionUpdateChanges)
    (expectedVersion : Nat) (now : Nat) :
    Except BusinessRuleViolation (ActionState × List ActionEvent) :=
  if state.version ≠ expectedVersion then
    Except.error ⟨"action.version.mismatch"⟩
  else if state.status = StatusType.inactive then
    Except.error ⟨"action.update.inactive"⟩
  else if providedNameEmpty changes then
    Except.error ⟨"action.name.required"⟩
  else if providedNameTooLong changes then
    Except.error ⟨"action.name.too_long"⟩
  else
    let nameCh : Option (String × String) :=
      match changes.name with
      | some n => if n ≠ state.name then some (state.name, n.trim) else none
      | none => none
    let descCh : Option (Option String × Option String) :=
      match changes.description with
      | some d => if some d ≠ state.description then some (state.description, jsTrimOrNull d)
                  else none
      | none => none
    let metaCh : Option (Option String × Option String) :=
      match changes.metadata with
      | some m => some (state.metadata, some m)
      | none => none
    if nameCh.isNone ∧ descCh.isNone ∧ metaCh.isNone then
      Except.ok (state, [])
    else
      let newVersion := state.version + 1
      let st1 : ActionState :=
        { state with
          name := (match nameCh with | some c => c.2 | none => state.name)
          description := (match descCh with | some c => c.2 | none => state.description)
          metadata := (match metaCh with | some c => c.2 | none => state.metadata)
          version := newVersion
          updatedAt := now }
      Except.ok (st1, [ActionEvent.updated ⟨state.id, ⟨nameCh, descCh, metaCh⟩, newVersion, now⟩])

/-- A live action at version 1 whose metadata is `"m"`. -/
def sampleActionState : ActionState :=
  { id := "a1"
    userId := "u1"
    name := "Task"
    type := "custom"
    description := some "desc"
    metadata := some "m"
    status := StatusType.active
    version := 1
    createdAt := 0
    updatedAt := 0
    completedAt := none }

/-- An update whose only provided field, metadata, equals the current
metadata of `sampleActionState`. -/
def noopMetadataChanges : ActionUpdateChanges :=
  { name := none, description := none, metadata := some "m" }

/-- C9 counterexample: an update providing only metadata equal to the
current value succeeds but emits one `action.updated` event and bumps the
version, because `update` records a metadata change whenever the field is
provided, without comparing it to the current value.  The claim says such
an all-equal update yields zero events and no version bump. -/
theorem noop_metadata_update_bumps_version :
    ∃ st evs,
      actionAggregateUpdate sampleActionState noopMetadataChanges 1 100 =
        Except.ok (st, evs) ∧
      st.version = sampleActionState.version + 1 ∧ evs.length = 1 :=
  ⟨{ sampleActionState with version := 2, updatedAt := 100 },
   [ActionEvent.updated ⟨"a1", ⟨none, none, some (some "m", some "m")⟩, 2, 100⟩],
   by rfl, by rfl, by rfl⟩

/-- C9 amended: for an action in a non-terminal state and matching expected
version, an update whose provided name and description equal the current
state *and which does not provide metadata* succeeds with zero events and
leaves the state (hence the version) unchanged.  (Providing metadata —
even equal to the current value — always emits an event and bumps the
version, as the counterexample shows.) -/
theorem noop_update_without_metadata (state : ActionState) (changes : ActionUpdateChanges)
    (now : Nat)
    (hstatus : state.status ≠ StatusType.inactive)
    (hmeta : changes.metadata = none)
    (hname : ∀ n, changes.name = some n → n = state.name)
    (hnameValid : ∀ n, changes.name = some n → n.trim.length ≠ 0 ∧ n.length ≤ 200)
    (hdesc : ∀ d, changes.description = some d → state.description = some d) :
    actionAggregateUpdate state changes state.version now = Except.ok (state, []) := by
  rcases hcn : changes.name with _ | n <;> rcases hcd : changes.description with _ | d
  · simp [actionAggregateUpdate, providedNameEmpty, providedNameTooLong, hcn, hcd, hmeta, hstatus]
  · have hdd := hdesc d hcd
    simp [actionAggregateUpdate, providedNameEmpty, providedNameTooLong, hcn, hcd, hmeta, hstatus, hdd]
  · have hne := hname n hcn
    have hv := hnameValid n hcn
    have hlen : ¬ (200 < n.length) := by omega
    subst hne
    simp [actionAggregateUpdate, providedNameEmpty, providedNameTooLong, hcn, hcd, hmeta, hstatus, hv.1, hlen]
  · have hne := hname n hcn
    have hv := hnameValid n hcn
    have hlen : ¬ (200 < n.length) := by omega
    have hdd := hdesc d hcd
    subst hne
    simp [actionAggregateUpdate, providedNameEmpty, providedNameTooLong, hcn, hcd, hmeta, hstatus, hv.1, hlen, hdd]

/-- C9 amended, witness: re-providing the current description of
`sampleActionState` without metadata is a no-op: success, no events, state
unchanged. -/
theorem noop_update_without_metadata_witness :
    actionAggregateUpdate sampleActionState
      { name := none, description := some "desc", metadata := none }
      sampleActionState.version 100 = Except.ok (sampleActionState, []) :=
  noop_update_without_metadata sampleActionState
    { name := none, description := some "desc", metadata := none } 100
    (by decide) rfl
    (fun n hn => nomatch hn)
    (fun n hn => nomatch hn)
    (fun d hd => hd)

end Veritas

namespace Veritas

/-! ## Repositories (`src/repositories/actions.repo.ts`,
`src/repositories/users.repo.ts` / `PoliciesRepo`)

Rows of the `actions` and `policies` tables.  JSON columns are opaque
strings. -/

/-- Errors a repository update can raise (`EntityNotFoundError`). -/
inductive RepoError
  | entityNotFound
deriving DecidableEq, Repr

/-- One row of the `actions` table. -/
structure ActionRow where
  id : String
  userId : String
  name : String
  type : String
  description : Option String
  metadata : Option String
  status : StatusType
  version : Nat
  createdAt : Nat
  updatedAt : Nat
  completedAt : Option Nat
deriving DecidableEq, Repr

/-- The SET list of `ActionsRepo.update`: name, description, metadata,
status, version, updatedAt, completedAt taken from the aggregate state;
id, userId, type, createdAt keep the stored values. -/
def actionsApplySet (state stored : ActionRow) : ActionRow :=
  { stored with
    name := state.name
    description := state.description
    metadata := state.metadata
    status := state.status
    version := state.version
    updatedAt := state.updatedAt
    completedAt := state.completedAt }

/-- `ActionsRepo.update`: `UPDATE actions SET ... WHERE id = state.id
RETURNING *`; when no row matched, `EntityNotFoundError` is thrown.  The
WHERE clause matches on the id alone — it carries no version predicate. -/
def actionsRepoUpdate (db : List ActionRow) (state : ActionRow) :
    Except RepoError (List ActionRow) :=
  if db.any (fun r => r.id == state.id) then
    Except.ok (db.map (fun r => if r.id == state.id then actionsApplySet state r else r))
  else
    Except.error RepoError.entityNotFound

/-- `PolicyStatus = 'draft' | 'active' | 'suspended' | 'revoked'`. -/
inductive PolicyStatus
  | draft
  | active
  | suspended
  | revoked
deriving DecidableEq, BEq, Repr

/-- One row of the `policies` table. -/
structure PolicyRow where
  id : String
  userId : String
  name : String
  description : Option String
  rules : String
  status : PolicyStatus
  version : Nat
  createdAt : Nat
  updatedAt : Nat
  activatedAt : Option Nat
  suspendedAt : Option Nat
  suspensionReason : Option String
  revokedAt : Option Nat
  revocationReason : Option String
  revokedBy : Option String
deriving DecidableEq, Repr

/-- The SET list of `PoliciesRepo.update`. -/
def policiesApplySet (state stored : PolicyRow) : PolicyRow :=
  { stored with
    name := state.name
    description := state.description
    rules := state.rules
    status := state.status
    version := state.version
    updatedAt := state.updatedAt
    activatedAt := state.activatedAt
    suspendedAt := state.suspendedAt
    suspensionReason := state.suspensionReason
    revokedAt := state.revokedAt
    revocationReason := state.revocationReason
    revokedBy := state.revokedBy }

/-- `PoliciesRepo.update`: the signature accepts `expectedVersion` but the
method body never reads it; the UPDATE's WHERE clause matches on the id
alone, exactly as in `ActionsRepo.update`. -/
def policiesRepoUpdate (db : List PolicyRow) (state : PolicyRow)
    (expectedVersion : Nat) : Except RepoError (List PolicyRow) :=
  if db.any (fun r => r.id == state.id) then
    Except.ok (db.map (fun r => if r.id == state.id then policiesApplySet state r else r))
  else
    Except.error RepoError.entityNotFound

/-- The persisted policy row after a concurrent writer advanced it to
version 5. -/
def storedPolicyV5 : PolicyRow :=
  { id := "p1"
    userId := "u1"
    name := "P-current"
    description := none
    rules := "rules-v5"
    status := PolicyStatus.active
    version := 5
    createdAt := 0
    updatedAt := 50
    activatedAt := some 10
    suspendedAt := none
    suspensionReason := none
    revokedAt := none
    revocationReason := none
    revokedBy := none }

/-- The write of a caller whose aggregate was loaded at version 3 (it passed
expectedVersion 3; the in-memory aggregate bumped to 4), prepared while the
stored row already reached version 5. -/
def stalePolicyWrite : PolicyRow :=
  { storedPolicyV5 with name := "P-stale", rules := "rules-v3-edit", version := 4, updatedAt := 60 }

/-- The persisted action row after a concurrent writer advanced it to
version 5. -/
def storedActionV5 : ActionRow :=
  { id := "a1"
    userId := "u1"
    name := "A-current"
    type := "custom"
    description := none
    metadata := none
    status := StatusType.active
    version := 5
    createdAt := 0
    updatedAt := 50
    completedAt := none }

/-- A stale action write at version 4 against the stored version-5 row. -/
def staleActionWrite : ActionRow :=
  { storedActionV5 with name := "A-stale", version := 4, updatedAt := 60 }

/-- C3: the repository update statements carry no version predicate, so a
write whose expected version does not match the stored row's version is
applied instead of rejected.  `PoliciesRepo.update` ignores its
`expectedVersion` argument entirely, and on a stored row at version 5 a
stale write prepared from expected version 3 succeeds and overwrites the
row, regressing its version to 4; `ActionsRepo.update` behaves the same
(it does not even receive an expected version). -/
theorem repo_update_ignores_stored_version :
    (∀ (db : List PolicyRow) (st : PolicyRow) (ev1 ev2 : Nat),
        policiesRepoUpdate db st ev1 = policiesRepoUpdate db st ev2) ∧
    storedPolicyV5.version = 5 ∧
    stalePolicyWrite.version = 4 ∧
    policiesRepoUpdate [storedPolicyV5] stalePolicyWrite 3 =
      Except.ok [policiesApplySet stalePolicyWrite storedPolicyV5] ∧
    (policiesApplySet stalePolicyWrite storedPolicyV5).version = 4 ∧
    actionsRepoUpdate [storedActionV5] staleActionWrite =
      Except.ok [actionsApplySet staleActionWrite storedActionV5] ∧
    storedActionV5.version = 5 ∧
    (actionsApplySet staleActionWrite storedActionV5).version = 4 :=
  ⟨fun _ _ _ _ => rfl, rfl, rfl, rfl, rfl, rfl, rfl, rfl⟩

/-! ## Event store and transactional write path
(`src/event-bus/event-store.service.ts`, `ActionsRepo.save`)

The database transaction is modelled explicitly: the callback runs against
a working copy of the database; if it returns an error the transaction
rolls back (the original database is kept) and the caller receives that
error, which is the documented behaviour of the `db.transaction` wrapper
the source uses.  A fault parameter `failAt` injects a database failure at
the numbered statement of the transaction, modelling the database raising
mid-transaction. -/

/-- One row of `domain_events`. -/
structure DomainEventRow where
  id : Nat
  aggregateType : String
  aggregateId : String
  eventType : String
  eventVersion : Nat
  payload : String
  metadata : String
  occurredAt : Nat
deriving DecidableEq, Repr

/-- The relational state touched by the action write path. -/
structure EventStoreDB where
  nextEventId : Nat
  actions : List ActionRow
  domainEvents : List DomainEventRow
  eventOutbox : List OutboxRow
deriving DecidableEq, Repr

/-- An in-memory `IDomainEvent` (payload and metadata blobs opaque;
`metadataVersion` is `event.metadata.version`). -/
structure IDomainEvent where
  eventType : String
  aggregateType : String
  aggregateId : String
  payload : String
  metadataVersion : Nat
  metadata : String
deriving DecidableEq, Repr

/-- Database failure raised inside a transaction. -/
inductive DbError
  | dbRaised
deriving DecidableEq, Repr

/-- Transaction-local state: the working database and the index of the next
statement to execute (used by the fault injector). -/
structure TxState where
  db : EventStoreDB
  stepIdx : Nat
deriving Repr

/-- Run one SQL statement of the transaction: the database either raises
(when the fault oracle names this statement) or applies the statement. -/
def runStmt (failAt : Option Nat) (s : TxState) (f : EventStoreDB → EventStoreDB) :
    Except DbError TxState :=
  if failAt = some s.stepIdx then Except.error DbError.dbRaised
  else Except.ok { db := f s.db, stepIdx := s.stepIdx + 1 }

/-- The `domain_events` INSERT of `persistEventInTransaction`, returning the
generated id via the `nextEventId` counter. -/
def insertDomainEventStmt (now : Nat) (e : IDomainEvent) (db : EventStoreDB) : EventStoreDB :=
  { db with
    nextEventId := db.nextEventId + 1
    domainEvents := db.domainEvents ++
      [{ id := db.nextEventId
         aggregateType := e.aggregateType
         aggregateId := e.aggregateId
         eventType := e.eventType
         eventVersion := e.metadataVersion
         payload := e.payload
         metadata := e.metadata
         occurredAt := now }] }

/-- The `event_outbox` INSERT of `persistEventInTransaction`: denormalized
routing fields, payload spread together with the metadata blob, explicit
`status = 'pending'`, and the schema defaults for the remaining columns
(retry count 0, max retries 5, no error, NULL processed/next-retry
timestamps). -/
def insertOutboxStmt (now : Nat) (e : IDomainEvent) (evId : Nat) (db : EventStoreDB) :
    EventStoreDB :=
  { db with
    eventOutbox := db.eventOutbox ++
      [{ id := evId
         eventId := evId
         eventType := e.eventType
         aggregateType := e.aggregateType
         aggregateId := e.aggregateId
         payload := e.payload ++ e.metadata
         status := OutboxStatus.pending
         retryCount := 0
         maxRetries := 5
         lastError := none
         createdAt := now
         processedAt := none
         nextRetryAt := none }] }

/-- `persistEventInTransaction`: insert the domain event row, then its
outbox row, as two statements of the enclosing transaction. -/
def persistEventInTx (failAt : Option Nat) (now : Nat) (e : IDomainEvent)
    (s : TxState) : Except DbError TxState := do
  let evId := s.db.nextEventId
  let s1 ← runStmt failAt s (insertDomainEventStmt now e)
  runStmt failAt s1 (insertOutboxStmt now e evId)

/-- `persistEventsWithTransaction`: persist the events in input order
within the same transaction. -/
def persistEventsInTx (failAt : Option Nat) (now : Nat) (events : List IDomainEvent)
    (s : TxState) : Except DbError TxState :=
  events.foldlM (fun st e => persistEventInTx failAt now e st) s

/-- The callback `ActionsRepo.save` passes to `withTransaction`: insert the
entity state row, then persist the events with their outbox rows. -/
def actionsRepoSaveTx (failAt : Option Nat) (now : Nat) (state : ActionRow)
    (events : List IDomainEvent) (db : EventStoreDB) : Except DbError EventStoreDB := do
  let s1 ← runStmt failAt { db := db, stepIdx := 0 }
    (fun d => { d with actions := d.actions ++ [state] })
  let s2 ← persistEventsInTx failAt now events s1
  pure s2.db

/-- `EventStoreService.withTransaction` as the source relies on it: run the
callback inside one database transaction; on success commit the callback's
writes, on any callback failure roll the transaction back (the database is
unchanged) and surface the original failure to the caller. -/
def runTransaction (cb : EventStoreDB → Except DbError EventStoreDB)
    (db : EventStoreDB) : EventStoreDB × Option DbError :=
  match cb db with
  | Except.ok db2 => (db2, none)
  | Except.error e => (db, some e)

/-- `ActionsRepo.save`: the save callback run through `withTransaction`. -/
def actionsRepoSave (failAt : Option Nat) (now : Nat) (state : ActionRow)
    (events : List IDomainEvent) (db : EventStoreDB) : EventStoreDB × Option DbError :=
  runTransaction (actionsRepoSaveTx failAt now state events) db

/-- C8: any failure of the callback passed to `withTransaction` aborts the
whole transaction — the database is exactly the pre-transaction database —
and the caller receives the original failure.  In particular, when the
database raises at statement 1 of `ActionsRepo.save` (the first event
insert, so after the entity-state insert and before any event row), the
save of one-or-more events leaves neither the action row nor any
domain-event or outbox row persisted. -/
theorem tx_failure_leaves_database_unchanged :
    (∀ (cb : EventStoreDB → Except DbError EventStoreDB) (db : EventStoreDB) (e : DbError),
        cb db = Except.error e → runTransaction cb db = (db, some e)) ∧
    (∀ (db : EventStoreDB) (st : ActionRow) (ev : IDomainEvent)
        (evs : List IDomainEvent) (now : Nat),
        actionsRepoSave (some 1) now st (ev :: evs) db = (db, some DbError.dbRaised)) := by
  refine ⟨?_, ?_⟩
  · intro cb db e h
    simp [runTransaction, h]
  · intro db st ev evs now
    rfl

/-- An empty database. -/
def emptyEventStoreDB : EventStoreDB :=
  { nextEventId := 0, actions := [], domainEvents := [], eventOutbox := [] }

/-- A sample in-memory domain event. -/
def sampleDomainEvent : IDomainEvent :=
  { eventType := "action.updated"
    aggregateType := "action"
    aggregateId := "a1"
    payload := "pl"
    metadataVersion := 1
    metadata := "md" }

/-- C8 witness: an immediately failing callback rolls back on the empty
database, and the faulted save of one event leaves the empty database
empty with the failure surfaced. -/
theorem tx_failure_leaves_database_unchanged_witness :
    runTransaction (fun _ => Except.error DbError.dbRaised) emptyEventStoreDB =
      (emptyEventStoreDB, some DbError.dbRaised) ∧
    actionsRepoSave (some 1) 0 storedActionV5 [sampleDomainEvent] emptyEventStoreDB =
      (emptyEventStoreDB, some DbError.dbRaised) :=
  ⟨tx_failure_leaves_database_unchanged.1 (fun _ => Except.error DbError.dbRaised)
      emptyEventStoreDB DbError.dbRaised rfl,
   tx_failure_leaves_database_unchanged.2 emptyEventStoreDB storedActionV5
      sampleDomainEvent [] 0⟩

end Veritas
